import Mathlib

/-!
Shallow embedding of the field/validation engine of `zope.schema`
(source file `src/zope/schema/_field.py`), together with theorems
checking the natural-language specification against it.

Conventions of the embedding:
* Python values handled by the fields under scrutiny are modelled by the
  inductive `PyValue`; validation errors by `VErr`.
* A method that either returns `None` or raises a `ValidationError` is
  modelled as `Except VErr Unit`.
* Code inherited from `zope.schema._bootstrapfields` (the classes `Field`,
  `Text`, `TextLine`, `Int`, `Orderable`, `MinMaxLen`), which is not part of
  the source file, is either taken as an explicit function parameter named
  `base` (standing for the `super()._validate` call) or modelled from the
  specification; such definitions carry a doc comment starting with
  `Modelled from the spec:`.
-/

namespace ZS

/-- Model of the Python runtime values that flow through the validators:
byte strings, unicode (text) strings, and integers, plus a `pyNone`
placeholder for `None`. -/
inductive PyValue where
  | pyBytes (s : List Nat)
  | pyUnicode (s : String)
  | pyInt (n : Int)
  | pyNone
deriving DecidableEq

/-- Model of the `zope.schema` validation-error hierarchy (the classes
imported from `zope.schema.interfaces` at the top of `_field.py`).
`wrongType` records the offending value and the name of the expected type;
the aggregate `wrongContainedType` carries the ordered child-error list;
`schemaNotCorrectlyImplemented` carries the per-attribute error mapping
(`schema_errors`) and the invariant-error list (`invariant_errors`) as two
separate collections, exactly as `Object._validate` attaches them. -/
inductive VErr where
  | requiredMissing
  | wrongType (value : PyValue) (expected : String)
  | constraintNotSatisfied (value : PyValue)
  | tooShort
  | tooLong
  | tooSmall
  | tooBig
  | invalidValue (value : PyValue)
  | wrongContainedType (errors : List VErr)
  | notUnique (item : PyValue)
  | invalidURI (value : String)
  | invalidDottedName (value : String)
  | invalidId (value : String)
  | invalidFloatLiteral (literal : String)
  | invalidDecimalLiteral (literal : String)
  | schemaNotProvided
  | schemaNotFullyImplemented
  | schemaNotCorrectlyImplemented
      (schema_errors : List (String × VErr)) (invariant_errors : List VErr)

/-! ## Collection validation (`_validate_sequence`, `_validate_uniqueness`,
`AbstractCollection._validate`) -/

/-- Embedding of `_validate_sequence(value_type, value, errors=None)`:
if `value_type` is `None` return `errors` unchanged; otherwise run
`value_type.validate(item)` for every item of the sequence, appending the
`ValidationError` of every failing item to `errors`. The member field is
represented by its validation function. -/
def validate_sequence (value_type : Option (PyValue → Except VErr Unit))
    (value : List PyValue) (errors : List VErr) : List VErr :=
  match value_type with
  | none => errors
  | some vt =>
    value.foldl
      (fun acc item =>
        match vt item with
        | .ok _ => acc
        | .error e => acc ++ [e])
      errors

/-- The error produced by one member validation, if any. -/
def errOf (r : Except VErr Unit) : Option VErr :=
  match r with
  | .ok _ => none
  | .error e => some e

/-- Embedding of the loop of `_validate_uniqueness(self, value)`:
walk the members keeping the list `temp_values` of members already seen;
raise `NotUnique(item)` at the first member already in `temp_values`. -/
def validate_uniqueness_loop (temp_values : List PyValue) :
    List PyValue → Except VErr Unit
  | [] => .ok ()
  | item :: rest =>
    if item ∈ temp_values then .error (.notUnique item)
    else validate_uniqueness_loop (temp_values ++ [item]) rest

/-- Embedding of `_validate_uniqueness(self, value)` (`temp_values = []`). -/
def validate_uniqueness (value : List PyValue) : Except VErr Unit :=
  validate_uniqueness_loop [] value

/-- The configuration of an `AbstractCollection` field that
`_validate` consults: the optional member field (as its validation
function) and the `unique` flag. -/
structure CollectionField where
  value_type : Option (PyValue → Except VErr Unit)
  unique : Bool

/-- Embedding of `AbstractCollection._validate(self, value)`:
run the inherited checks (`base`, standing for
`super(AbstractCollection, self)._validate`), collect the member errors
with `_validate_sequence`, raise `WrongContainedType(errors)` if any,
and only otherwise, when `self.unique`, run `_validate_uniqueness`. -/
def AbstractCollection_validate (base : List PyValue → Except VErr Unit)
    (f : CollectionField) (value : List PyValue) : Except VErr Unit :=
  match base value with
  | .error e => .error e
  | .ok _ =>
    let errors := validate_sequence f.value_type value []
    if ¬ errors.isEmpty then .error (.wrongContainedType errors)
    else if f.unique then validate_uniqueness value
    else .ok ()

/-- Modelled from the spec: `TextLine` lives in `_bootstrapfields`, outside
the source file. Per the spec, base field validation raises a wrong-type
error when the value is not an instance of the declared type (`_type` is
the text type for `TextLine`), and a constraint error when the line
constraint (no newline) fails. The element values validated here are
never the missing sentinel, so the required check cannot fire. -/
def TextLine_validate (value : PyValue) : Except VErr Unit :=
  match value with
  | .pyUnicode s =>
    if s.toList.contains '\n' then .error (.constraintNotSatisfied value)
    else .ok ()
  | v => .error (.wrongType v "unicode")

/-- The member-validation loop of `_validate_sequence` appends exactly the
errors of the failing members, in sequence order, to the incoming list. -/
theorem seq_foldl_eq (vt : PyValue → Except VErr Unit) (value : List PyValue) :
    ∀ errors : List VErr,
      value.foldl
        (fun acc item =>
          match vt item with
          | .ok _ => acc
          | .error e => acc ++ [e])
        errors
      = errors ++ value.filterMap (fun item => errOf (vt item)) := by
  induction value with
  | nil => intro errors; simp
  | cons item rest ih =>
    intro errors
    simp only [List.foldl_cons, List.filterMap_cons]
    cases h : vt item with
    | ok u => simp [h, errOf, ih errors]
    | error e => simp [h, errOf, ih (errors ++ [e])]

/-- The function `validate_sequence` with a configured member field collects one error
per failing member, in container order. -/
theorem validate_sequence_some (vt : PyValue → Except VErr Unit)
    (value : List PyValue) (errors : List VErr) :
    validate_sequence (some vt) value errors
      = errors ++ value.filterMap (fun item => errOf (vt item)) :=
  seq_foldl_eq vt value errors

/-- The uniqueness loop succeeds when no member repeats and none is
already among the accumulated `temp_values`. -/
theorem uniq_loop_ok (value : List PyValue) :
    ∀ temp_values : List PyValue,
      (∀ x ∈ value, x ∉ temp_values) → value.Nodup →
      validate_uniqueness_loop temp_values value = .ok () := by
  induction value with
  | nil => intro temp _ _; rfl
  | cons item rest ih =>
    intro temp hdisj hnd
    have hitem : item ∉ temp := hdisj item (by simp)
    have hnd' := (List.nodup_cons.mp hnd)
    simp only [validate_uniqueness_loop, hitem, if_neg, not_false_eq_true]
    exact ih (temp ++ [item])
      (fun x hx => by
        simp only [List.mem_append, List.mem_singleton]
        rintro (h | rfl)
        · exact hdisj x (by simp [hx]) h
        · exact hnd'.1 hx)
      hnd'.2

/-- The uniqueness loop raises `NotUnique` exactly at the first member that
compares equal to an earlier member (or to a member of `temp_values`),
whatever comes after it. -/
theorem uniq_loop_error (pre : List PyValue) :
    ∀ (temp_values : List PyValue) (x : PyValue) (rest : List PyValue),
      pre.Nodup → (∀ y ∈ pre, y ∉ temp_values) → x ∈ temp_values ++ pre →
      validate_uniqueness_loop temp_values (pre ++ x :: rest)
        = .error (.notUnique x) := by
  induction pre with
  | nil =>
    intro temp x rest _ _ hx
    simp only [List.append_nil] at hx
    simp [validate_uniqueness_loop, hx]
  | cons p pre2 ih =>
    intro temp x rest hnd hdisj hx
    have hp : p ∉ temp := hdisj p (by simp)
    have hnd' := List.nodup_cons.mp hnd
    simp only [List.cons_append, validate_uniqueness_loop, hp, if_neg,
      not_false_eq_true]
    refine ih (temp ++ [p]) x rest hnd'.2
      (fun y hy => by
        simp only [List.mem_append, List.mem_singleton]
        rintro (h | rfl)
        · exact hdisj y (by simp [hy]) h
        · exact hnd'.1 hy) ?_
    have : temp ++ [p] ++ pre2 = temp ++ p :: pre2 := by simp
    rw [this]
    exact hx

/-- C1: for every collection field with a configured `value_type`, member
validation runs over every element (not fail-fast), collecting one error
per failing member in container order, and a nonempty error list is raised
as a single aggregate `WrongContainedType` carrying exactly that list; in
particular `TextLine(required=True)` over the sequence
`(b'foo', u'bar', 1)` yields the aggregate with exactly the two wrong-type
child errors of positions 0 and 2. -/
theorem C1_collection_aggregate :
    (∀ (vt : PyValue → Except VErr Unit) (base : List PyValue → Except VErr Unit)
       (u : Bool) (value : List PyValue),
       base value = .ok () →
       validate_sequence (some vt) value []
         = value.filterMap (fun item => errOf (vt item)) ∧
       (value.filterMap (fun item => errOf (vt item)) ≠ [] →
        AbstractCollection_validate base ⟨some vt, u⟩ value
          = .error (.wrongContainedType
              (value.filterMap (fun item => errOf (vt item)))))) ∧
    AbstractCollection_validate (fun _ => .ok ()) ⟨some TextLine_validate, false⟩
        [.pyBytes [102, 111, 111], .pyUnicode "bar", .pyInt 1]
      = .error (.wrongContainedType
          [.wrongType (.pyBytes [102, 111, 111]) "unicode",
           .wrongType (.pyInt 1) "unicode"]) := by
  constructor
  · intro vt base u value hbase
    have hseq : validate_sequence (some vt) value []
        = value.filterMap (fun item => errOf (vt item)) := by
      simpa using validate_sequence_some vt value []
    refine ⟨hseq, fun hne => ?_⟩
    have hne' : (value.filterMap (fun item => errOf (vt item))).isEmpty = false := by
      cases h : value.filterMap (fun item => errOf (vt item)) with
      | nil => exact absurd h hne
      | cons e es => rfl
    simp [AbstractCollection_validate, hbase, hseq, hne']
  · rfl

/-- Witness for C1 at a concrete input: an always-failing member validator
over a two-element list yields both child errors in order. -/
theorem C1_collection_aggregate_witness :
    validate_sequence (some (fun v => .error (.invalidValue v)))
        [PyValue.pyInt 0, PyValue.pyInt 1] []
      = [.invalidValue (.pyInt 0), .invalidValue (.pyInt 1)] ∧
    AbstractCollection_validate (fun _ => .ok ())
        ⟨some (fun v => .error (.invalidValue v)), false⟩
        [PyValue.pyInt 0, PyValue.pyInt 1]
      = .error (.wrongContainedType
          [.invalidValue (.pyInt 0), .invalidValue (.pyInt 1)]) := by
  have h := (C1_collection_aggregate.1 (fun v => .error (.invalidValue v))
    (fun _ => .ok ()) false [PyValue.pyInt 0, PyValue.pyInt 1] rfl)
  exact ⟨h.1, h.2 (by simp [errOf])⟩

/-- C2: with `unique` set, the uniqueness pass runs only when member
type-validation produced zero errors — any member error yields the
aggregate `WrongContainedType`, never `NotUnique` — and the uniqueness
pass raises `NotUnique` immediately at the first member equal to an
earlier member, whatever follows it. -/
theorem C2_uniqueness_pass :
    (∀ (base : List PyValue → Except VErr Unit) (f : CollectionField)
       (value : List PyValue),
       base value = .ok () →
       validate_sequence f.value_type value [] ≠ [] →
       AbstractCollection_validate base f value
         = .error (.wrongContainedType (validate_sequence f.value_type value []))) ∧
    (∀ (base : List PyValue → Except VErr Unit) (f : CollectionField)
       (pre : List PyValue) (x : PyValue) (rest : List PyValue),
       base (pre ++ x :: rest) = .ok () →
       f.unique = true →
       validate_sequence f.value_type (pre ++ x :: rest) [] = [] →
       pre.Nodup → x ∈ pre →
       AbstractCollection_validate base f (pre ++ x :: rest)
         = .error (.notUnique x)) := by
  constructor
  · intro base f value hbase hne
    have hne' : (validate_sequence f.value_type value []).isEmpty = false := by
      cases h : validate_sequence f.value_type value [] with
      | nil => exact absurd h hne
      | cons e es => rfl
    simp [AbstractCollection_validate, hbase, hne']
  · intro base f pre x rest hbase huniq hseq hnd hx
    have hcall : validate_uniqueness (pre ++ x :: rest) = .error (.notUnique x) :=
      uniq_loop_error pre [] x rest hnd (by simp) (by simpa using hx)
    simp only [AbstractCollection_validate, hbase, hseq, huniq,
      List.isEmpty_nil, Bool.not_false, if_true, if_false, ite_true,
      ite_false, not_true_eq_false, Bool.false_eq_true]
    exact hcall

/-- Witness for C2 at concrete inputs: a member error suppresses the
uniqueness pass even on a duplicated list, and a duplicate with clean
member validation raises `NotUnique` at the first repeat. -/
theorem C2_uniqueness_pass_witness :
    AbstractCollection_validate (fun _ => .ok ())
        ⟨some TextLine_validate, true⟩ [PyValue.pyInt 1, PyValue.pyInt 1]
      = .error (.wrongContainedType
          [.wrongType (.pyInt 1) "unicode", .wrongType (.pyInt 1) "unicode"]) ∧
    AbstractCollection_validate (fun _ => .ok ()) ⟨none, true⟩
        [PyValue.pyInt 7, PyValue.pyInt 7, PyValue.pyInt 9]
      = .error (.notUnique (.pyInt 7)) := by
  constructor
  · exact C2_uniqueness_pass.1 (fun _ => .ok ()) ⟨some TextLine_validate, true⟩
      [PyValue.pyInt 1, PyValue.pyInt 1] rfl
      (by simp [validate_sequence, TextLine_validate, errOf])
  · exact C2_uniqueness_pass.2 (fun _ => .ok ()) ⟨none, true⟩
      [PyValue.pyInt 7] (PyValue.pyInt 7) [PyValue.pyInt 9] rfl rfl rfl
      (by simp) (by simp)

/-! ## Construction of collection and Choice fields
(`AbstractCollection.__init__`, `Set.__init__`, `FrozenSet.__init__`,
`Choice.__init__`) -/

/-- Construction-time Python exceptions raised by the `__init__` methods. -/
inductive InitError where
  | typeError
  | valueError
deriving DecidableEq

/-- A candidate `value_type` argument: the embedding records whether the
object provides `IField` (checked by `AbstractCollection.__init__`)
together with its validation function. -/
structure MemberField where
  providesIField : Bool
  validate : PyValue → Except VErr Unit

/-- Embedding of `AbstractCollection.__init__(self, value_type=None,
unique=False, **kw)`: reject a `value_type` that is not a field instance,
otherwise store `value_type` and `unique`. -/
def AbstractCollection_init (value_type : Option MemberField) (unique : Bool) :
    Except InitError CollectionField :=
  match value_type with
  | some vt =>
    if ¬ vt.providesIField then .error .valueError
    else .ok ⟨some vt.validate, unique⟩
  | none => .ok ⟨none, unique⟩

/-- Embedding of `Set.__init__(self, **kw)`: `kw_unique` is the value of an
explicit `unique=` keyword argument, when one was passed. Passing it raises
`TypeError`; otherwise delegate with `unique=True`. -/
def Set_init (kw_unique : Option Bool) (value_type : Option MemberField) :
    Except InitError CollectionField :=
  if kw_unique.isSome then .error .typeError
  else AbstractCollection_init value_type true

/-- Embedding of `FrozenSet.__init__(self, **kw)`: same shape as
`Set.__init__`. -/
def FrozenSet_init (kw_unique : Option Bool) (value_type : Option MemberField) :
    Except InitError CollectionField :=
  if kw_unique.isSome then .error .typeError
  else AbstractCollection_init value_type true

/-- C6: `Set` and `FrozenSet` reject an explicit `unique=` keyword argument
with a `TypeError` whatever its value, and any successfully constructed
`Set` or `FrozenSet` has `unique = True`. -/
theorem C6_set_frozenset_unique :
    (∀ (b : Bool) (vt : Option MemberField),
       Set_init (some b) vt = .error .typeError ∧
       FrozenSet_init (some b) vt = .error .typeError) ∧
    (∀ vt : Option MemberField,
       (Set_init none vt = .error .valueError ∨
        ∃ f, Set_init none vt = .ok f ∧ f.unique = true) ∧
       (FrozenSet_init none vt = .error .valueError ∨
        ∃ f, FrozenSet_init none vt = .ok f ∧ f.unique = true)) := by
  constructor
  · intro b vt
    exact ⟨rfl, rfl⟩
  · intro vt
    have h : ∀ g : Except InitError CollectionField,
        g = AbstractCollection_init vt true →
        g = .error .valueError ∨ ∃ f, g = .ok f ∧ f.unique = true := by
      intro g hg
      cases vt with
      | none => exact Or.inr ⟨⟨none, true⟩, hg, rfl⟩
      | some m =>
        by_cases hf : m.providesIField
        · exact Or.inr ⟨⟨some m.validate, true⟩, by simp [hg, AbstractCollection_init, hf], rfl⟩
        · exact Or.inl (by simp [hg, AbstractCollection_init, hf])
    exact ⟨h _ rfl, h _ rfl⟩

/-- The `vocabulary` / `source` argument of `Choice.__init__`: either a
string (a registered vocabulary name) or an object, of which the
constructor only inspects which of `IBaseVocabulary`, `ISource` and
`IContextSourceBinder` it provides. -/
inductive VocabArg where
  | vname (s : String)
  | vobj (ibase : Bool) (isrc : Bool) (ibinder : Bool)

/-- Whether the argument is a string (`isinstance(vocabulary, string_types)`). -/
def vocabIsStr : VocabArg → Bool
  | .vname _ => true
  | .vobj _ _ _ => false

/-- Whether the argument provides `IBaseVocabulary`. -/
def vocabIBase : VocabArg → Bool
  | .vname _ => false
  | .vobj b _ _ => b

/-- Whether the argument provides `ISource`. -/
def vocabISource : VocabArg → Bool
  | .vname _ => false
  | .vobj _ s _ => s

/-- Whether the argument provides `IContextSourceBinder`. -/
def vocabIBinder : VocabArg → Bool
  | .vname _ => false
  | .vobj _ _ b => b

/-- The state a constructed `Choice` ends up in: an inline vocabulary built
from `values` (`SimpleVocabulary.fromValues`), a vocabulary object, or a
vocabulary name. -/
structure ChoiceState where
  fromValues : Option (List PyValue)
  vocabulary : Option VocabArg
  vocabularyName : Option String

/-- Embedding of `Choice.__init__(self, values=None, vocabulary=None,
source=None, **kw)`: validate the vocabulary argument, fold `source` into
`vocabulary`, reject missing or conflicting configurations, then record
exactly one source of truth. The deferred-default machinery
(`_init_field`) and the `super().__init__` call do not affect which
argument combinations raise and are not modelled. -/
def Choice_init (values : Option (List PyValue)) (vocabulary0 : Option VocabArg)
    (source : Option VocabArg) : Except InitError ChoiceState :=
  let checked : Except InitError (Option VocabArg) :=
    match vocabulary0 with
    | some voc =>
      if ¬ (vocabIsStr voc || vocabIBase voc) then .error .valueError
      else if source.isSome then .error .valueError
      else .ok (some voc)
    | none => .ok source
  match checked with
  | .error e => .error e
  | .ok vocab =>
    if values.isNone && vocab.isNone then .error .valueError
    else if values.isSome && vocab.isSome then .error .valueError
    else
      match values, vocab with
      | some vs, _ => .ok ⟨some vs, none, none⟩
      | none, some (.vname n) => .ok ⟨none, none, some n⟩
      | none, some voc =>
        if ¬ (vocabISource voc || vocabIBinder voc) then .error .valueError
        else .ok ⟨none, some voc, none⟩
      | none, none => .error .valueError

/-- C7: `Choice` construction enforces exactly one vocabulary source:
no `values`, no `vocabulary` and no `source` raises; `values` together
with a `vocabulary` raises; `source` together with a `vocabulary` raises. -/
theorem C7_choice_exclusive_sources :
    Choice_init none none none = .error .valueError ∧
    (∀ (vs : List PyValue) (voc : VocabArg),
       Choice_init (some vs) (some voc) none = .error .valueError) ∧
    (∀ (src voc : VocabArg),
       Choice_init none (some voc) (some src) = .error .valueError) := by
  refine ⟨rfl, ?_, ?_⟩
  · intro vs voc
    by_cases h : (vocabIsStr voc || vocabIBase voc) = true
    · simp [Choice_init, h]
    · simp [Choice_init, h]
  · intro src voc
    by_cases h : (vocabIsStr voc || vocabIBase voc) = true
    · simp [Choice_init, h]
    · simp [Choice_init, h]

/-! ## `Date._validate` -/

/-- The values a `Date` field may be asked to validate: a plain `date`
(day ordinal), a `datetime` (day ordinal plus time-of-day), or a value of
some other type. In Python `datetime` is a subclass of `date`, so both
pass an `isinstance(value, date)` check. -/
inductive DateValue where
  | pdate (d : Int)
  | pdatetime (d : Int) (t : Nat)
  | otherVal (v : PyValue)
deriving DecidableEq

/-- Errors raised along the `Date._validate` chain. -/
inductive DateErr where
  | wrongType
  | tooSmall
  | tooBig
deriving DecidableEq

/-- Check `isinstance(value, date)`: true for `date` and for its subclass
`datetime`. -/
def isDateInstance : DateValue → Bool
  | .otherVal _ => false
  | _ => true

/-- Check `isinstance(value, datetime)`. -/
def isDatetimeInstance : DateValue → Bool
  | .pdatetime _ _ => true
  | _ => false

/-- Modelled from the spec: the ordering key used by the orderable-bounds
check. A `datetime` extends the day ordinal with its time-of-day; a plain
`date` sorts as the start of its day. (The `Orderable` mixin is in
`_bootstrapfields`, outside the source file; the spec only states
`min <= value <= max` when each bound is present.) -/
def dateKey : DateValue → Int × Nat
  | .pdate d => (d, 0)
  | .pdatetime d t => (d, t)
  | .otherVal _ => (0, 0)

/-- Strict comparison of ordering keys (day ordinal first, then time). -/
def keyLt (a b : Int × Nat) : Bool :=
  a.1 < b.1 || (a.1 = b.1 && a.2 < b.2)

/-- Embedding of `Date._validate(self, value)`. The inherited chain
(`Field` type check against `_type = date`, then the `Orderable` bounds,
both modelled from the spec since `_bootstrapfields` is outside the
source file) runs first; the line of `Date._validate` itself then raises
`WrongType` for any `datetime` instance. Bounds of a `Date` field are
dates, given by their day ordinals. -/
def Date_validate (minb maxb : Option Int) (value : DateValue) :
    Except DateErr Unit :=
  if ¬ isDateInstance value then .error .wrongType
  else
    let k := dateKey value
    if (match minb with | some m => keyLt k (m, 0) | none => false) then
      .error .tooSmall
    else if (match maxb with | some m => keyLt (m, 0) k | none => false) then
      .error .tooBig
    else if isDatetimeInstance value then .error .wrongType
    else .ok ()

/-- C8 counterexample: a `datetime` below a configured lower bound is
rejected by the inherited bounds check (which runs before the
datetime-narrowing line), not with a wrong-type error — refuting the claim
that every `datetime` instance is rejected with a wrong-type error. -/
theorem C8_date_counterexample :
    Date_validate (some 10) none (.pdatetime 5 0) = .error .tooSmall ∧
    Except.error (ε := DateErr) (α := Unit) .tooSmall
      ≠ .error .wrongType ∧
    Date_validate (some 10) none (.pdatetime 5 0) ≠ .error .wrongType := by
  have h1 : Date_validate (some 10) none (.pdatetime 5 0) = .error .tooSmall := rfl
  refine ⟨h1, ?_, ?_⟩
  · intro h
    exact DateErr.noConfusion (Except.error.inj h)
  · intro h
    rw [h1] at h
    exact DateErr.noConfusion (Except.error.inj h)

/-- C8 (amended): `Date` validation never accepts a `datetime` instance;
whenever the value passes the inherited checks — always, in particular,
when no bounds are configured — the rejection is the wrong-type error,
even though a `datetime` passes the structural `isinstance(value, date)`
check; and a plain `date` within the configured bounds validates
successfully. -/
theorem C8_date_rejects_datetime :
    (∀ (minb maxb : Option Int) (d : Int) (t : Nat),
       Date_validate minb maxb (.pdatetime d t) ≠ .ok ()) ∧
    (∀ (d : Int) (t : Nat),
       Date_validate none none (.pdatetime d t) = .error .wrongType) ∧
    (∀ (minb maxb : Option Int) (d : Int) (t : Nat),
       isDateInstance (.pdatetime d t) = true →
       (match minb with
        | some m => keyLt (dateKey (.pdatetime d t)) (m, 0)
        | none => false) = false →
       (match maxb with
        | some m => keyLt (m, 0) (dateKey (.pdatetime d t))
        | none => false) = false →
       Date_validate minb maxb (.pdatetime d t) = .error .wrongType) ∧
    (∀ (minb maxb : Option Int) (d : Int),
       (match minb with
        | some m => keyLt (dateKey (.pdate d)) (m, 0)
        | none => false) = false →
       (match maxb with
        | some m => keyLt (m, 0) (dateKey (.pdate d))
        | none => false) = false →
       Date_validate minb maxb (.pdate d) = .ok ()) := by
  refine ⟨?_, ?_, ?_, ?_⟩
  · intro minb maxb d t
    simp only [Date_validate, isDateInstance, Bool.not_true, isDatetimeInstance]
    split
    · simp
    · split
      · simp
      · split
        · simp
        · simp
  · intro d t
    rfl
  · intro minb maxb d t _ hmin hmax
    simp [Date_validate, isDateInstance, isDatetimeInstance, hmin, hmax]
  · intro minb maxb d hmin hmax
    simp [Date_validate, isDateInstance, isDatetimeInstance, hmin, hmax]

/-- Witness for C8 (amended) at concrete inputs. -/
theorem C8_date_rejects_datetime_witness :
    Date_validate (some 0) (some 100) (.pdatetime 5 3) ≠ .ok () ∧
    Date_validate none none (.pdatetime 5 3) = .error .wrongType ∧
    Date_validate (some 0) (some 100) (.pdatetime 5 3) = .error .wrongType ∧
    Date_validate (some 0) (some 100) (.pdate 5) = .ok () :=
  ⟨C8_date_rejects_datetime.1 (some 0) (some 100) 5 3,
   C8_date_rejects_datetime.2.1 5 3,
   C8_date_rejects_datetime.2.2.1 (some 0) (some 100) 5 3 rfl (by decide) (by decide),
   C8_date_rejects_datetime.2.2.2 (some 0) (some 100) 5 (by decide) (by decide)⟩

/-! ## `ASCII._validate` -/

/-- Outcome of a validation step that may also raise a non-validation
Python exception (here: the `ValueError` that `max()` raises on an empty
sequence). -/
inductive ScanResult where
  | ok
  | verr (e : VErr)
  | pyexn

/-- Python `max(...)` over a list of naturals: Python raises `ValueError` on an
empty sequence, modelled by `none`. -/
def pyMax (l : List Nat) : Option Nat :=
  l.max?

/-- Embedding of `ASCII._validate(self, value)`: run the inherited checks
(`base`, standing for `super(ASCII, self)._validate`; on Python 3
`NativeString` is the bootstrap `Text` class, outside the source file),
return early when the value is falsy (the empty string), otherwise raise
`InvalidValue` unless the maximum code point is below 128. The `max()`
call raises `ValueError` on an empty sequence, modelled as `pyexn`. -/
def ASCII_validate (base : List Char → Except VErr Unit) (value : List Char) :
    ScanResult :=
  match base value with
  | .error e => .verr e
  | .ok _ =>
    if value.isEmpty then .ok
    else
      match pyMax (value.map Char.toNat) with
      | none => .pyexn
      | some m =>
        if ¬ m < 128 then .verr (.invalidValue (.pyUnicode (String.mk value)))
        else .ok

/-- On a nonempty list, `pyMax` yields a maximum that is below 128 exactly
when every element is. -/
theorem pyMax_lt_iff (x : Nat) (l : List Nat) :
    ∃ m, pyMax (x :: l) = some m ∧ (m < 128 ↔ ∀ y ∈ x :: l, y < 128) := by
  induction l generalizing x with
  | nil => exact ⟨x, rfl, by simp⟩
  | cons y l ih =>
    obtain ⟨m, hm, hiff⟩ := ih (max x y)
    refine ⟨m, hm, ?_⟩
    rw [hiff]
    constructor
    · intro h z hz
      have hm1 : max x y < 128 := h (max x y) (by simp)
      simp only [List.mem_cons] at hz
      rcases hz with h1 | h1 | h1
      · rw [h1]
        exact lt_of_le_of_lt (le_max_left x y) hm1
      · rw [h1]
        exact lt_of_le_of_lt (le_max_right x y) hm1
      · exact h z (by simp [h1])
    · intro h z hz
      simp only [List.mem_cons] at hz
      rcases hz with h1 | h1
      · rw [h1]
        exact max_lt (h x (by simp)) (h y (by simp))
      · exact h z (by simp [h1])

/-- C9: validating the empty string against an `ASCII` field skips the
code-point scan (the falsy early return) and succeeds at that check; the
`max()`-on-empty-sequence crash is unreachable for every input; and for a
value passing the inherited checks, validation succeeds exactly when the
value is empty or every code point is below 128 — so the below-128
restriction is enforced only for non-empty values. -/
theorem C9_ascii_empty_early_return :
    (∀ base : List Char → Except VErr Unit,
       base [] = .ok () → ASCII_validate base [] = .ok) ∧
    (∀ (base : List Char → Except VErr Unit) (value : List Char),
       ASCII_validate base value ≠ .pyexn) ∧
    (∀ (base : List Char → Except VErr Unit) (value : List Char),
       base value = .ok () →
       (ASCII_validate base value = .ok ↔
        value.isEmpty = true ∨ ∀ c ∈ value, c.toNat < 128)) := by
  refine ⟨?_, ?_, ?_⟩
  · intro base hbase
    simp [ASCII_validate, hbase]
  · intro base value
    cases hbase : base value with
    | error e => simp [ASCII_validate, hbase]
    | ok u =>
      cases value with
      | nil => simp [ASCII_validate, hbase]
      | cons c cs =>
        obtain ⟨m, hm, _⟩ := pyMax_lt_iff c.toNat (cs.map Char.toNat)
        by_cases hlt : m < 128 <;>
          simp [ASCII_validate, hbase, hm, hlt]
  · intro base value hbase
    cases value with
    | nil => simp [ASCII_validate, hbase]
    | cons c cs =>
      obtain ⟨m, hm, hiff⟩ := pyMax_lt_iff c.toNat (cs.map Char.toNat)
      have hiff2 : m < 128 ↔ ∀ x ∈ c :: cs, x.toNat < 128 := by
        rw [hiff]
        constructor
        · intro h x hx
          simp only [List.mem_cons] at hx
          rcases hx with rfl | hx
          · exact h _ (by simp)
          · exact h x.toNat
              (List.mem_cons_of_mem _ (List.mem_map_of_mem _ hx))
        · intro h y hy
          simp only [List.mem_cons, List.mem_map] at hy
          rcases hy with rfl | ⟨x, hx, rfl⟩
          · exact h c (by simp)
          · exact h x (by simp [hx])
      by_cases hlt : m < 128
      · have hres : ASCII_validate base (c :: cs) = .ok := by
          simp [ASCII_validate, hbase, hm, hlt]
        rw [hres]
        exact ⟨fun _ => Or.inr (hiff2.mp hlt), fun _ => rfl⟩
      · have hnot : ¬ ∀ x ∈ c :: cs, x.toNat < 128 :=
          fun hh => hlt (hiff2.mpr hh)
        have hres : ASCII_validate base (c :: cs)
            = .verr (.invalidValue (.pyUnicode (String.mk (c :: cs)))) := by
          simp [ASCII_validate, hbase, hm, hlt]
        rw [hres]
        constructor
        · intro h
          exact ScanResult.noConfusion h
        · intro h
          rcases h with h | h
          · exact Bool.noConfusion h
          · exact absurd h hnot

/-- Witness for C9 at concrete inputs. -/
theorem C9_ascii_empty_early_return_witness :
    ASCII_validate (fun _ => .ok ()) [] = .ok ∧
    ASCII_validate (fun _ => .ok ()) ['a', 'b'] ≠ .pyexn ∧
    (ASCII_validate (fun _ => .ok ()) ['a', 'b'] = .ok ↔
      ([] : List Char) ≠ [] ∨ True) := by
  refine ⟨C9_ascii_empty_early_return.1 (fun _ => .ok ()) rfl,
    C9_ascii_empty_early_return.2.1 (fun _ => .ok ()) ['a', 'b'], ?_⟩
  have h := C9_ascii_empty_early_return.2.2 (fun _ => .ok ()) ['a', 'b'] rfl
  constructor
  · intro _
    exact Or.inr trivial
  · intro _
    exact h.mpr (Or.inr (by decide))

/-! ## String-shaped leaf fields: the `_isuri` / `_isdotted` patterns,
`URI`, `DottedName`, `Id`, and the `fromUnicode` parsers -/

/-- A character of the scheme part of the `_isuri` regular expression,
character class `[a-zA-z0-9+.-]`: note the source writes `A-z`, which
also covers the code points between `Z` and `a`, and subsumes `a-z`. -/
def isSchemeChar (c : Char) : Bool :=
  ('A' ≤ c && c ≤ 'z') || c.isDigit || c = '+' || c = '.' || c = '-'

/-- Python whitespace for `str.strip()` and the `\S` character class
(the ASCII whitespace characters). -/
def isPySpace (c : Char) : Bool :=
  c = ' ' || c = '\t' || c = '\n' || c = '\r' || c = '\x0b' || c = '\x0c'

/-- A Python `$` anchor matches at the end of the string or just before a
single trailing newline; the characters the patterns consume never include
a newline, so matching against a whole string is matching the string with
one trailing newline removed against the end of the pattern. -/
def dropTrailingNewline (l : List Char) : List Char :=
  if l.getLast? = some '\n' then l.dropLast else l

/-- Embedding of `_isuri = re.compile(r"[a-zA-z0-9+.-]+:\S*$").match`:
a nonempty run of scheme characters, a colon, then non-space characters to
the end. Since `:` is not a scheme character the greedy run necessarily
stops at the first non-scheme character, which must be the colon. -/
def isuri (l : List Char) : Bool :=
  let s := dropTrailingNewline l
  let scheme := s.takeWhile isSchemeChar
  let rest := s.drop scheme.length
  !scheme.isEmpty &&
    (match rest with
     | ':' :: tail => tail.all (fun c => !isPySpace c)
     | _ => false)

/-- An ASCII letter, character class `[a-zA-Z]`. -/
def isAlphaChar (c : Char) : Bool :=
  ('a' ≤ c && c ≤ 'z') || ('A' ≤ c && c ≤ 'Z')

/-- The continuation of the `_isdotted` pattern after its leading letter:
a mix of `[a-zA-Z0-9_]` word characters and groups `[.][a-zA-Z]...`. The
pattern is deterministic because `.` is not a word character. -/
def dottedTail : List Char → Bool
  | [] => true
  | '.' :: c :: rest => isAlphaChar c && dottedTail rest
  | ['.'] => false
  | c :: rest => (isAlphaChar c || c.isDigit || c = '_') && dottedTail rest

/-- Embedding of
`_isdotted = re.compile(r"([a-zA-Z][a-zA-Z0-9_]*)([.][a-zA-Z][a-zA-Z0-9_]*)*$").match`:
dot-separated segments, each a letter followed by word characters. -/
def isdotted (l : List Char) : Bool :=
  match dropTrailingNewline l with
  | [] => false
  | c :: rest => isAlphaChar c && dottedTail rest

/-- Is the length below a configured `min_length`? -/
def belowMin (bound : Option Nat) (n : Nat) : Bool :=
  match bound with
  | some m => n < m
  | none => false

/-- Is the length above a configured `max_length`? -/
def aboveMax (bound : Option Nat) (n : Nat) : Bool :=
  match bound with
  | some m => m < n
  | none => false

/-- Modelled from the spec: the inherited `_validate` chain of a native
string line field (`NativeStringLine`, i.e. the bootstrap `TextLine` on
Python 3, which is `Text` + `MinMaxLen` + the no-newline constraint; all
in `_bootstrapfields`, outside the source file). The value is a native
string by construction, so the type check passes; the constraint (no
newline) and the length bounds can fail. -/
def lineBase_validate (min_length max_length : Option Nat) (v : List Char) :
    Except VErr Unit :=
  if v.contains '\n' then
    .error (.constraintNotSatisfied (.pyUnicode (String.mk v)))
  else if belowMin min_length v.length then .error .tooShort
  else if aboveMax max_length v.length then .error .tooLong
  else .ok ()

/-- Embedding of `URI._validate(self, value)`: the inherited line checks,
then `InvalidURI` unless `_isuri(value)` matches. -/
def URI_validate (min_length max_length : Option Nat) (v : List Char) :
    Except VErr Unit :=
  match lineBase_validate min_length max_length v with
  | .error e => .error e
  | .ok _ =>
    if isuri v then .ok ()
    else .error (.invalidURI (String.mk v))

/-- Embedding of `DottedName._validate(self, value)`: inherited line
checks, then `InvalidDottedName` unless `_isdotted(value)` matches, then
the `min_dots`/`max_dots` window over `value.count(".")`. -/
def DottedName_validate (min_dots : Nat) (max_dots : Option Nat)
    (min_length max_length : Option Nat) (v : List Char) : Except VErr Unit :=
  match lineBase_validate min_length max_length v with
  | .error e => .error e
  | .ok _ =>
    if ¬ isdotted v then .error (.invalidDottedName (String.mk v))
    else if v.count '.' < min_dots then .error (.invalidDottedName (String.mk v))
    else if (match max_dots with
             | some m => decide (m < v.count '.')
             | none => false) then
      .error (.invalidDottedName (String.mk v))
    else .ok ()

/-- Embedding of `Id._validate(self, value)`: inherited line checks, then
accept on `_isuri(value)`, else accept on `_isdotted(value)` with at least
one literal dot, else raise `InvalidId`. -/
def Id_validate (min_length max_length : Option Nat) (v : List Char) :
    Except VErr Unit :=
  match lineBase_validate min_length max_length v with
  | .error e => .error e
  | .ok _ =>
    if isuri v then .ok ()
    else if isdotted v && v.contains '.' then .ok ()
    else .error (.invalidId (String.mk v))

/-- Python `str.strip()`: drop leading and trailing whitespace. -/
def pyStrip (l : List Char) : List Char :=
  ((l.dropWhile isPySpace).reverse.dropWhile isPySpace).reverse

/-- Encoding `v.encode('ascii')` succeeds exactly when every code point is below
128. -/
def pyEncodeAsciiOk (v : List Char) : Bool :=
  v.all (fun c => c.toNat < 128)

/-- Embedding of `_StrippedNativeStringLine.fromUnicode(self, value)`:
strip, encode to ASCII (raising `self._invalid_exc_type(value)` on
failure), validate the result, return it. -/
def strippedLine_fromUnicode (validate : List Char → Except VErr Unit)
    (invalidExc : String → VErr) (value : String) : Except VErr (List Char) :=
  let v := pyStrip value.toList
  if ¬ pyEncodeAsciiOk v then .error (invalidExc value)
  else
    match validate v with
    | .error e => .error e
    | .ok _ => .ok v

/-- Embedding of `DottedName.fromUnicode` (inherited from
`_StrippedNativeStringLine`, with `_invalid_exc_type = InvalidDottedName`). -/
def DottedName_fromUnicode (min_dots : Nat) (max_dots : Option Nat)
    (min_length max_length : Option Nat) (value : String) :
    Except VErr (List Char) :=
  strippedLine_fromUnicode
    (DottedName_validate min_dots max_dots min_length max_length)
    (fun s => .invalidDottedName s) value

/-- Embedding of `Id.fromUnicode` (inherited from
`_StrippedNativeStringLine`, with `_invalid_exc_type = InvalidId`). -/
def Id_fromUnicode (min_length max_length : Option Nat) (value : String) :
    Except VErr (List Char) :=
  strippedLine_fromUnicode (Id_validate min_length max_length)
    (fun s => .invalidId s) value

/-- Embedding of `URI.fromUnicode(self, value)`: strip, validate, return. -/
def URI_fromUnicode (min_length max_length : Option Nat) (value : String) :
    Except VErr (List Char) :=
  let v := pyStrip value.toList
  match URI_validate min_length max_length v with
  | .error e => .error e
  | .ok _ => .ok v

/-- The helper `make_binary(uc)`, the UTF-8 encoding of a text string (from
`zope.schema._compat`); it never fails on text input. -/
def pyUtf8 (s : String) : List Nat :=
  s.toUTF8.toList.map (fun b => b.toNat)

/-- Modelled from the spec: `Bytes` is `MinMaxLen` + `Field` with
`_type = bytes` (the mixins are in `_bootstrapfields`, outside the source
file). A byte-string value passes the type check by construction; the
length bounds can fail. -/
def Bytes_validate (min_length max_length : Option Nat) (v : List Nat) :
    Except VErr Unit :=
  if belowMin min_length v.length then .error .tooShort
  else if aboveMax max_length v.length then .error .tooLong
  else .ok ()

/-- Embedding of `Bytes.fromUnicode(self, uc)`: `v = make_binary(uc)`,
`self.validate(v)`, `return v`. -/
def Bytes_fromUnicode (min_length max_length : Option Nat) (uc : String) :
    Except VErr (List Nat) :=
  let v := pyUtf8 uc
  match Bytes_validate min_length max_length v with
  | .error e => .error e
  | .ok _ => .ok v

/-- Modelled from the spec: `Float` is `Orderable` + `Field` (both in
`_bootstrapfields`, outside the source file); a parsed value passes the
type check by construction and the orderable bounds can fail. Float
values are modelled as rationals. -/
def Float_validate (minb maxb : Option Rat) (v : Rat) : Except VErr Unit :=
  if (match minb with | some m => decide (v < m) | none => false) then
    .error .tooSmall
  else if (match maxb with | some m => decide (m < v) | none => false) then
    .error .tooBig
  else .ok ()

/-- Embedding of `Float.fromUnicode(self, uc)`: try `float(uc)` (the
platform float-literal parser, taken as the parameter `parseFloat`),
raising `InvalidFloatLiteral` on failure; then `self.validate(v)`;
`return v`. -/
def Float_fromUnicode (parseFloat : String → Option Rat)
    (minb maxb : Option Rat) (uc : String) : Except VErr Rat :=
  match parseFloat uc with
  | none => .error (.invalidFloatLiteral uc)
  | some v =>
    match Float_validate minb maxb v with
    | .error e => .error e
    | .ok _ => .ok v

/-- Modelled from the spec: `Decimal` validation, like `Float_validate`. -/
def Decimal_validate (minb maxb : Option Rat) (v : Rat) : Except VErr Unit :=
  if (match minb with | some m => decide (v < m) | none => false) then
    .error .tooSmall
  else if (match maxb with | some m => decide (m < v) | none => false) then
    .error .tooBig
  else .ok ()

/-- Embedding of `Decimal.fromUnicode(self, uc)`: try `decimal.Decimal(uc)`
(taken as the parameter `parseDecimal`), raising `InvalidDecimalLiteral`
on failure; then `self.validate(v)`; `return v`. -/
def Decimal_fromUnicode (parseDecimal : String → Option Rat)
    (minb maxb : Option Rat) (uc : String) : Except VErr Rat :=
  match parseDecimal uc with
  | none => .error (.invalidDecimalLiteral uc)
  | some v =>
    match Decimal_validate minb maxb v with
    | .error e => .error e
    | .ok _ => .ok v

/-- The `validate-then-return` tail shared by every `fromUnicode`: if the
tail returned a value, the field's own validation of that value succeeded. -/
theorem validate_then_return {α : Type} (validate : α → Except VErr Unit)
    (v x : α)
    (h : (match validate v with
          | .error e => Except.error e
          | .ok _ => Except.ok v) = .ok x) :
    validate x = .ok () := by
  cases hv : validate v with
  | error e =>
    rw [hv] at h
    exact Except.noConfusion h
  | ok u =>
    rw [hv] at h
    cases Except.ok.inj h
    cases u
    exact hv

/-- The method `_StrippedNativeStringLine.fromUnicode` only returns values that pass
the field's own validation. -/
theorem strippedLine_fromUnicode_valid
    (validate : List Char → Except VErr Unit) (invalidExc : String → VErr)
    (s : String) (v : List Char)
    (h : strippedLine_fromUnicode validate invalidExc s = .ok v) :
    validate v = .ok () := by
  unfold strippedLine_fromUnicode at h
  by_cases ha : pyEncodeAsciiOk (pyStrip s.toList) = true
  · simp only [ha, Bool.true_eq_false, not_true_eq_false, if_false,
      ite_false, not_true, Bool.not_true] at h
    · exact validate_then_return validate (pyStrip s.toList) v (by
        cases hv : validate (pyStrip s.toList) with
        | error e => rw [hv] at h; exact h
        | ok u => rw [hv] at h; exact h)
  · simp only [ha] at h
    simp at h

/-- C5: for every leaf field implementing `fromUnicode` — `Bytes`, `Float`,
`Decimal`, `URI`, `DottedName`, `Id` — and every input string, either an
invalid-literal error is raised or the returned value passes the field's
own validation. -/
theorem C5_fromUnicode_validates :
    (∀ (minl maxl : Option Nat) (uc : String) (v : List Nat),
       Bytes_fromUnicode minl maxl uc = .ok v →
       Bytes_validate minl maxl v = .ok ()) ∧
    (∀ (parseFloat : String → Option Rat) (minb maxb : Option Rat)
       (uc : String) (v : Rat),
       Float_fromUnicode parseFloat minb maxb uc = .ok v →
       Float_validate minb maxb v = .ok ()) ∧
    (∀ (parseDecimal : String → Option Rat) (minb maxb : Option Rat)
       (uc : String) (v : Rat),
       Decimal_fromUnicode parseDecimal minb maxb uc = .ok v →
       Decimal_validate minb maxb v = .ok ()) ∧
    (∀ (minl maxl : Option Nat) (uc : String) (v : List Char),
       URI_fromUnicode minl maxl uc = .ok v →
       URI_validate minl maxl v = .ok ()) ∧
    (∀ (min_dots : Nat) (max_dots : Option Nat) (minl maxl : Option Nat)
       (uc : String) (v : List Char),
       DottedName_fromUnicode min_dots max_dots minl maxl uc = .ok v →
       DottedName_validate min_dots max_dots minl maxl v = .ok ()) ∧
    (∀ (minl maxl : Option Nat) (uc : String) (v : List Char),
       Id_fromUnicode minl maxl uc = .ok v →
       Id_validate minl maxl v = .ok ()) := by
  refine ⟨?_, ?_, ?_, ?_, ?_, ?_⟩
  · intro minl maxl uc v h
    exact validate_then_return (Bytes_validate minl maxl) (pyUtf8 uc) v h
  · intro parseFloat minb maxb uc v h
    unfold Float_fromUnicode at h
    cases hp : parseFloat uc with
    | none => rw [hp] at h; exact Except.noConfusion h
    | some w =>
      rw [hp] at h
      exact validate_then_return (Float_validate minb maxb) w v h
  · intro parseDecimal minb maxb uc v h
    unfold Decimal_fromUnicode at h
    cases hp : parseDecimal uc with
    | none => rw [hp] at h; exact Except.noConfusion h
    | some w =>
      rw [hp] at h
      exact validate_then_return (Decimal_validate minb maxb) w v h
  · intro minl maxl uc v h
    exact validate_then_return (URI_validate minl maxl) (pyStrip uc.toList) v h
  · intro min_dots max_dots minl maxl uc v h
    exact strippedLine_fromUnicode_valid _ _ uc v h
  · intro minl maxl uc v h
    exact strippedLine_fromUnicode_valid _ _ uc v h

/-- Witness for C5 at concrete inputs, one per field. -/
theorem C5_fromUnicode_validates_witness :
    Bytes_validate none none (pyUtf8 "foo") = .ok () ∧
    Float_validate none none 0 = .ok () ∧
    Decimal_validate none none 0 = .ok () ∧
    URI_validate none none "http://a".toList = .ok () ∧
    DottedName_validate 0 none none none "a.b".toList = .ok () ∧
    Id_validate none none "a.b".toList = .ok () :=
  ⟨C5_fromUnicode_validates.1 none none "foo" (pyUtf8 "foo") rfl,
   C5_fromUnicode_validates.2.1 (fun _ => some 0) none none "0" 0 rfl,
   C5_fromUnicode_validates.2.2.1 (fun _ => some 0) none none "0" 0 rfl,
   C5_fromUnicode_validates.2.2.2.1 none none "http://a" "http://a".toList
     rfl,
   C5_fromUnicode_validates.2.2.2.2.1 0 none none none "a.b" "a.b".toList
     rfl,
   C5_fromUnicode_validates.2.2.2.2.2 none none "a.b" "a.b".toList
     rfl⟩

/-- C10: `Id` validation accepts a value that passes the inherited line
checks exactly when it matches the URI pattern, or matches the dotted-name
grammar and contains a literal dot; the single undotted identifier
`"foo"`, although a valid dotted name and not a URI, is rejected with
`InvalidId`. -/
theorem C10_id_requires_dot :
    (∀ (minl maxl : Option Nat) (v : List Char),
       lineBase_validate minl maxl v = .ok () →
       (Id_validate minl maxl v = .ok () ↔
        isuri v = true ∨ (isdotted v = true ∧ v.contains '.' = true))) ∧
    isdotted "foo".toList = true ∧
    isuri "foo".toList = false ∧
    Id_validate none none "foo".toList = .error (.invalidId "foo") := by
  refine ⟨?_, by decide, by decide, rfl⟩
  intro minl maxl v hbase
  unfold Id_validate
  rw [hbase]
  by_cases hu : isuri v = true
  · simp [hu]
  · by_cases hd : (isdotted v && v.contains '.') = true
    · rw [Bool.and_eq_true] at hd
      simp [hu, hd.1, hd.2]
    · rw [Bool.and_eq_true] at hd
      push_neg at hd
      by_cases h1 : isdotted v = true
      · simp [hu, h1, hd h1]
      · simp [hu, h1]

/-- Witness for C10 at a concrete input: `"a.b"` is accepted. -/
theorem C10_id_requires_dot_witness :
    Id_validate none none "a.b".toList = .ok () :=
  (C10_id_requires_dot.1 none none "a.b".toList rfl).mpr
    (Or.inr ⟨by decide, by decide⟩)

/-! ## `Object` field and the recursive schema validator
(`VALIDATED_VALUES`, `_validate_fields`, `Object._validate`) -/

/-- The thread-local visited set `VALIDATED_VALUES.__dict__`, keyed by
`id(value)`. -/
abbrev VSet := List Nat

/-- The outcome of validating one attribute inside the `try` of
`_validate_fields`: success, a `ValidationError` (caught and recorded),
an `AttributeError` (caught and recorded as
`SchemaNotFullyImplemented`), or some other exception, which propagates
(the `finally` still runs). -/
inductive AttrOutcome where
  | ok
  | verr (e : VErr)
  | attrErr
  | exn

/-- A value under `Object` validation: its Python identity `id(value)` and
its attributes (`getattr`; a missing attribute raises `AttributeError`). -/
structure PyObject where
  ident : Nat
  attrs : String → Option PyValue

/-- One attribute declaration of a schema, as `_validate_fields` consults
it: whether it is a method (skipped), whether it provides `IChoice`
(bound to the value before validating, a context specialization that does
not change the visited-set bookkeeping) or `IField` (validated directly;
anything else is skipped), and its validation behaviour, which may itself
recurse and therefore reads and writes the visited set. -/
structure SchemaAttr where
  isMethod : Bool
  isChoice : Bool
  providesIField : Bool
  validate : PyValue → VSet → AttrOutcome × VSet

/-- A schema as `_validate_fields` and `Object._validate` consult it:
whether it is the universal `Interface`, the ordered attribute
declarations (`schema.names(all=True)` with `schema[name]`), the
structural conformance test `providedBy`, and the invariant hook
(`validateInvariants` collects into a caller-supplied list; the wrapper
exception it raises is caught and discarded by `Object._validate`). -/
structure Schema where
  isInterface : Bool
  attrs : List (String × SchemaAttr)
  providedByPred : PyObject → Bool
  invariants : PyObject → List VErr

/-- Python `dict` assignment `errors[name] = error` on an
insertion-ordered mapping represented as an association list: overwrite
in place if the key exists, else append. -/
def dictInsert : List (String × VErr) → String → VErr → List (String × VErr)
  | [], k, v => [(k, v)]
  | (k2, v2) :: rest, k, v =>
    if k2 = k then (k, v) :: rest else (k2, v2) :: dictInsert rest k v

/-- The result of `_validate_fields`: either the accumulated error mapping
or a propagating non-caught exception; paired with the visited set it
leaves behind. -/
inductive FieldsResult where
  | ok (errors : List (String × VErr))
  | exn

/-- The `for name in schema.names(all=True)` loop of `_validate_fields`:
skip methods; for a `Choice` or `IField` attribute read the attribute off
the value (`AttributeError` is recorded as `SchemaNotFullyImplemented`)
and validate it, recording a `ValidationError` or `AttributeError` under
the attribute name; any other exception aborts the walk and propagates. -/
def fieldsLoop (value : PyObject) :
    List (String × SchemaAttr) → VSet → List (String × VErr) →
    FieldsResult × VSet
  | [], s, errors => (.ok errors, s)
  | (name, attr) :: rest, s, errors =>
    if attr.isMethod then fieldsLoop value rest s errors
    else if attr.isChoice || attr.providesIField then
      match value.attrs name with
      | none =>
        fieldsLoop value rest s (dictInsert errors name .schemaNotFullyImplemented)
      | some av =>
        match attr.validate av s with
        | (.ok, s2) => fieldsLoop value rest s2 errors
        | (.verr e, s2) => fieldsLoop value rest s2 (dictInsert errors name e)
        | (.attrErr, s2) =>
          fieldsLoop value rest s2 (dictInsert errors name .schemaNotFullyImplemented)
        | (.exn, s2) => (.exn, s2)
    else fieldsLoop value rest s errors

/-- Embedding of `_validate_fields(schema, value)`: return zero errors for
the universal `Interface`; return zero errors immediately when
`id(value)` is already in the thread-local visited set; otherwise add
`id(value)`, walk the attributes, and — in the `finally` — delete
`id(value)` again on every exit path, exceptional ones included. -/
def validate_fields (schema : Schema) (value : PyObject) (s : VSet) :
    FieldsResult × VSet :=
  if schema.isInterface then (.ok [], s)
  else if value.ident ∈ s then (.ok [], s)
  else
    match fieldsLoop value schema.attrs (s ++ [value.ident]) [] with
    | (r, s2) => (r, s2.erase value.ident)

/-- The field configuration of an `Object` field. -/
structure ObjectField where
  schema : Schema
  validate_invariants : Bool

/-- Outcome of `Object._validate`: success, a raised `ValidationError`, or
a propagating other exception. -/
inductive OValResult where
  | ok
  | verr (e : VErr)
  | exn

/-- Embedding of `Object._validate(self, value)`: the inherited checks
(`base`, standing for `super(Object, self)._validate`), the coarse
`providedBy` capability check raising `SchemaNotProvided`, the
per-attribute walk `_validate_fields`, the invariant hook when
`validate_invariants` is set (its wrapper exception is swallowed, only
the collected list is used), and — when either collection is nonempty — a
single `SchemaNotCorrectlyImplemented` exposing the attribute-error
mapping as `schema_errors` and the invariant list as `invariant_errors`. -/
def Object_validate (base : PyObject → Except VErr Unit) (f : ObjectField)
    (value : PyObject) (s : VSet) : OValResult × VSet :=
  match base value with
  | .error e => (.verr e, s)
  | .ok _ =>
    if ¬ f.schema.providedByPred value then (.verr .schemaNotProvided, s)
    else
      match validate_fields f.schema value s with
      | (.exn, s2) => (.exn, s2)
      | (.ok schema_error_dict, s2) =>
        let invariant_errors :=
          if f.validate_invariants then f.schema.invariants value else []
        if schema_error_dict.isEmpty && invariant_errors.isEmpty then (.ok, s2)
        else
          (.verr (.schemaNotCorrectlyImplemented schema_error_dict
            invariant_errors), s2)

/-- Every key of a `dictInsert` result is the inserted key or an existing
key. -/
theorem dictInsert_keys_subset (l : List (String × VErr)) (k : String)
    (v : VErr) :
    ∀ x ∈ (dictInsert l k v).map Prod.fst, x = k ∨ x ∈ l.map Prod.fst := by
  induction l with
  | nil => intro x hx; simp only [dictInsert, List.map_cons] at hx; simp at hx; exact Or.inl hx
  | cons p rest ih =>
    intro x hx
    by_cases hk : p.1 = k
    · simp only [dictInsert, hk, if_true, ite_true, List.map_cons,
        List.mem_cons] at hx
      rcases hx with h | h
      · exact Or.inl h
      · exact Or.inr (by simp [h])
    · simp only [dictInsert, hk, if_false, ite_false, List.map_cons,
        List.mem_cons] at hx
      rcases hx with h | h
      · exact Or.inr (by simp [h])
      · rcases ih x h with h2 | h2
        · exact Or.inl h2
        · exact Or.inr (by simp [h2])

/-- The function `dictInsert` keeps the key list duplicate-free: at most one error is
ever recorded per attribute name. -/
theorem dictInsert_keys_nodup (l : List (String × VErr)) (k : String)
    (v : VErr) (h : (l.map Prod.fst).Nodup) :
    ((dictInsert l k v).map Prod.fst).Nodup := by
  induction l with
  | nil => simp [dictInsert]
  | cons p rest ih =>
    simp only [List.map_cons, List.nodup_cons] at h
    by_cases hk : p.1 = k
    · simp only [dictInsert, hk, if_true, ite_true, List.map_cons,
        List.nodup_cons]
      exact ⟨hk ▸ h.1, h.2⟩
    · simp only [dictInsert, hk, if_false, ite_false, List.map_cons,
        List.nodup_cons]
      refine ⟨?_, ih h.2⟩
      intro hmem
      rcases dictInsert_keys_subset rest k v p.1 hmem with h2 | h2
      · exact hk h2
      · exact h.1 h2

/-- The attribute walk preserves duplicate-freeness of the recorded
names. -/
theorem fieldsLoop_keys_nodup (value : PyObject) :
    ∀ (attrs : List (String × SchemaAttr)) (s : VSet)
      (errors : List (String × VErr)) (res : List (String × VErr)) (s2 : VSet),
      fieldsLoop value attrs s errors = (.ok res, s2) →
      (errors.map Prod.fst).Nodup → (res.map Prod.fst).Nodup := by
  intro attrs
  induction attrs with
  | nil =>
    intro s errors res s2 h hnd
    simp only [fieldsLoop] at h
    cases h
    exact hnd
  | cons p rest ih =>
    intro s errors res s2 h hnd
    obtain ⟨name, attr⟩ := p
    simp only [fieldsLoop] at h
    by_cases hm : attr.isMethod = true
    · rw [if_pos hm] at h
      exact ih s errors res s2 h hnd
    · rw [if_neg hm] at h
      by_cases hcf : (attr.isChoice || attr.providesIField) = true
      · rw [if_pos hcf] at h
        split at h
        · exact ih _ _ res s2 h (dictInsert_keys_nodup errors name _ hnd)
        · split at h
          · exact ih _ _ res s2 h hnd
          · exact ih _ _ res s2 h (dictInsert_keys_nodup errors name _ hnd)
          · exact ih _ _ res s2 h (dictInsert_keys_nodup errors name _ hnd)
          · exact FieldsResult.noConfusion (congrArg Prod.fst h)
      · rw [if_neg hcf] at h
        exact ih s errors res s2 h hnd

/-- If every attribute validator leaves the visited set unchanged, so does
the attribute walk. -/
theorem fieldsLoop_preserves (value : PyObject) :
    ∀ (attrs : List (String × SchemaAttr)) (s : VSet)
      (errors : List (String × VErr)),
      (∀ p ∈ attrs, ∀ (av : PyValue) (s3 : VSet),
        (p.2.validate av s3).2 = s3) →
      (fieldsLoop value attrs s errors).2 = s := by
  intro attrs
  induction attrs with
  | nil => intro s errors _; rfl
  | cons p rest ih =>
    intro s errors hpres
    obtain ⟨name, attr⟩ := p
    have hrest : ∀ p ∈ rest, ∀ (av : PyValue) (s3 : VSet),
        (p.2.validate av s3).2 = s3 :=
      fun q hq => hpres q (by simp [hq])
    simp only [fieldsLoop]
    by_cases hm : attr.isMethod = true
    · rw [if_pos hm]
      exact ih s errors hrest
    · rw [if_neg hm]
      by_cases hcf : (attr.isChoice || attr.providesIField) = true
      · rw [if_pos hcf]
        cases hav : value.attrs name with
        | none => exact ih _ _ hrest
        | some av =>
          have hkeep : (attr.validate av s).2 = s :=
            hpres (name, attr) (by simp) av s
          rcases hv : attr.validate av s with ⟨o, s3⟩
          have hs3 : s3 = s := by rw [hv] at hkeep; exact hkeep
          cases o with
          | ok =>
            simp only [hv, hs3]
            exact ih _ _ hrest
          | verr e =>
            simp only [hv, hs3]
            exact ih _ _ hrest
          | attrErr =>
            simp only [hv, hs3]
            exact ih _ _ hrest
          | exn =>
            simp only [hv, hs3]
      · rw [if_neg hcf]
        exact ih s errors hrest

/-- C4: the recursive per-attribute validator is cycle-safe and leak-free:
when `id(value)` is already in the thread-scoped visited set it returns an
empty error mapping immediately with the set untouched; otherwise — as
long as each attribute validator itself leaves the set as it found it,
which is the inductive hypothesis for the real recursive calls — the
identity added on entry is removed on every exit path, the propagation of
an attribute exception included, so the visited set after the call is
exactly the visited set before it. -/
theorem C4_visited_set_cleanup :
    (∀ (schema : Schema) (value : PyObject) (s : VSet),
       value.ident ∈ s → ¬ schema.isInterface = true →
       validate_fields schema value s = (.ok [], s)) ∧
    (∀ (schema : Schema) (value : PyObject) (s : VSet),
       (∀ p ∈ schema.attrs, ∀ (av : PyValue) (s3 : VSet),
         (p.2.validate av s3).2 = s3) →
       (validate_fields schema value s).2 = s) := by
  constructor
  · intro schema value s hmem hni
    simp [validate_fields, hni, hmem]
  · intro schema value s hpres
    by_cases hni : schema.isInterface = true
    · simp [validate_fields, hni]
    · by_cases hmem : value.ident ∈ s
      · simp [validate_fields, hni, hmem]
      · have hloop :
            (fieldsLoop value schema.attrs (s ++ [value.ident]) []).2
              = s ++ [value.ident] :=
          fieldsLoop_preserves value schema.attrs (s ++ [value.ident]) [] hpres
        simp only [validate_fields, hni, hmem, if_false, ite_false,
          Bool.false_eq_true]
        rcases hl : fieldsLoop value schema.attrs (s ++ [value.ident]) []
          with ⟨r, s2⟩
        have hs2 : s2 = s ++ [value.ident] := by rw [hl] at hloop; exact hloop
        simp only [hs2]
        rw [List.erase_append_right _ hmem]
        simp

/-- Witness for C4 at concrete inputs: a one-attribute schema over a value
already in the visited set, and the same schema over a fresh value. -/
theorem C4_visited_set_cleanup_witness :
    validate_fields
        ⟨false, [("x", ⟨false, false, true, fun _ s => (.ok, s)⟩)],
         fun _ => true, fun _ => []⟩
        ⟨5, fun _ => some (.pyInt 3)⟩ [5]
      = (.ok [], [5]) ∧
    (validate_fields
        ⟨false, [("x", ⟨false, false, true, fun _ s => (.ok, s)⟩)],
         fun _ => true, fun _ => []⟩
        ⟨5, fun _ => some (.pyInt 3)⟩ [7]).2
      = [7] :=
  ⟨C4_visited_set_cleanup.1 _ _ [5] (by decide) (by decide),
   C4_visited_set_cleanup.2 _ _ [7] (by
     intro p hp av s3
     simp only [List.mem_singleton] at hp
     subst hp
     rfl)⟩

/-- Modelled from the spec: the bootstrap `Int` field (in
`_bootstrapfields`, outside the source file) raises a wrong-type error
when the value is not an `int`. -/
def IntField_validate (value : PyValue) : Except VErr Unit :=
  match value with
  | .pyInt _ => .ok ()
  | v => .error (.wrongType v "int")

/-- The schema attribute `x: Int` used by the C3 scenarios, lifted to the
`AttrOutcome` interface (a plain field validator touches neither the
visited set nor non-validation exceptions). -/
def intAttr : SchemaAttr :=
  ⟨false, false, true,
   fun av s =>
     (match IntField_validate av with
      | .ok _ => .ok
      | .error e => .verr e, s)⟩

/-- The concrete schema declaring the single attribute `x: Int`, provided
by every candidate value, with no invariants. -/
def schemaX : Schema :=
  ⟨false, [("x", intAttr)], fun _ => true, fun _ => []⟩

/-- C3: for an `Object` field over a schema declaring `x: Int`, a value
lacking `x` entirely yields a `SchemaNotFullyImplemented` child error
recorded under key `"x"`, and a value whose `x` is a string yields a
wrong-type child error under `"x"`; both are raised as a single
`SchemaNotCorrectlyImplemented` aggregate exposing the per-attribute
mapping (`schema_errors`) and the invariant list (`invariant_errors`) as
two separate collections; and the per-attribute mapping always records at
most one error per attribute name. -/
theorem C3_object_schema_errors :
    Object_validate (fun _ => .ok ()) ⟨schemaX, true⟩
        ⟨1, fun _ => none⟩ []
      = (.verr (.schemaNotCorrectlyImplemented
          [("x", .schemaNotFullyImplemented)] []), []) ∧
    Object_validate (fun _ => .ok ()) ⟨schemaX, true⟩
        ⟨1, fun _ => some (.pyUnicode "not an int")⟩ []
      = (.verr (.schemaNotCorrectlyImplemented
          [("x", .wrongType (.pyUnicode "not an int") "int")] []), []) ∧
    (∀ (schema : Schema) (value : PyObject) (s : VSet)
       (res : List (String × VErr)) (s2 : VSet),
       validate_fields schema value s = (.ok res, s2) →
       (res.map Prod.fst).Nodup) := by
  refine ⟨rfl, rfl, ?_⟩
  intro schema value s res s2 h
  by_cases hni : schema.isInterface = true
  · simp only [validate_fields, hni, if_true, ite_true] at h
    cases h
    simp
  · by_cases hmem : value.ident ∈ s
    · simp only [validate_fields, hni, hmem, if_true, if_false, ite_true,
        ite_false, Bool.false_eq_true] at h
      cases h
      simp
    · simp only [validate_fields, hni, hmem, if_false, ite_false,
        Bool.false_eq_true] at h
      rcases hl : fieldsLoop value schema.attrs (s ++ [value.ident]) []
        with ⟨r, s3⟩
      rw [hl] at h
      cases r with
      | exn => exact absurd (congrArg Prod.fst h) (by simp)
      | ok errs =>
        have : errs = res := by
          have := congrArg Prod.fst h
          simpa using this
        exact this ▸
          fieldsLoop_keys_nodup value schema.attrs (s ++ [value.ident]) []
            errs s3 hl (by simp)

/-- Witness for C3 at a concrete input: the walk over `schemaX` records
the single key `"x"`, duplicate-free. -/
theorem C3_object_schema_errors_witness :
    ((([("x", VErr.schemaNotFullyImplemented)] : List (String × VErr)).map
      Prod.fst).Nodup) :=
  C3_object_schema_errors.2.2 schemaX ⟨1, fun _ => none⟩ []
    [("x", .schemaNotFullyImplemented)] [] rfl

end ZS
